import Mathlib

set_option autoImplicit false

namespace ShellBun

/-!
Shallow embedding of the shell-bun execution engine
(`src/matcher.rs`, `src/config.rs`, `src/logger.rs`, `src/executor.rs`).

External effects (filesystem existence checks, log-file creation,
subprocess exit statuses) are passed in explicitly through an
environment record, and the observable actions of an execution are
returned as an event trace.
-/

/-! ## String primitives

Rust `&str` operations are modelled structurally on the underlying
character lists (`String.data`), so that every definition evaluates by
kernel reduction.  Unicode case folding is modelled at ASCII granularity
(`Char.toLower`), which coincides with Rust for the nameclasses used by
the program. -/

/-- Rust `str::contains(char)`. -/
def strContainsChar (s : String) (c : Char) : Bool := s.data.contains c

/-- Rust `str::trim` on a character list. -/
def trimChars (l : List Char) : List Char :=
  ((l.dropWhile Char.isWhitespace).reverse.dropWhile Char.isWhitespace).reverse

/-- Rust `str::trim`. -/
def trimStr (s : String) : String := String.mk (trimChars s.data)

/-- Split at every character satisfying `p`, keeping empty pieces, as Rust
`str::split` does. -/
def splitPred (p : Char → Bool) : List Char → List (List Char)
  | [] => [[]]
  | c :: rest =>
    if p c then [] :: splitPred p rest
    else
      match splitPred p rest with
      | [] => [[c]]
      | h :: t => (c :: h) :: t

/-- Rust `str::split(sep)` for a single separator character. -/
def splitChar (sep : Char) (l : List Char) : List (List Char) :=
  splitPred (fun c => c == sep) l

/-- Rust `str::starts_with(char)`. -/
def strStartsWith (s : String) (c : Char) : Bool :=
  match s.data with
  | [] => false
  | a :: _ => a == c

/-- Rust `str::ends_with(char)`. -/
def strEndsWith (s : String) (c : Char) : Bool :=
  match s.data.getLast? with
  | some a => a == c
  | none => false

/-- Rust `str::is_empty`. -/
def strIsEmpty (s : String) : Bool := s.data.isEmpty

/-- Rust `str::split_once(sep)`: the pieces before and after the first
occurrence of `sep`. -/
def splitOnceChar (sep : Char) : List Char → Option (List Char × List Char)
  | [] => none
  | c :: rest =>
    if c == sep then some ([], rest)
    else (splitOnceChar sep rest).map (fun p => (c :: p.1, p.2))

/-! ## Model of the `glob` crate `Pattern` type, as used by `src/matcher.rs`.

`Pattern.new` compiles a pattern string to a token list, returning `none`
where the crate returns a `PatternError` (more than two consecutive `*`,
a `**` that is not a full path component, an invalid `[` range).
`globMatches` is `Pattern::matches` with the default `MatchOptions`
(case sensitive, no literal-separator or literal-leading-dot requirement). -/

inductive CharSpecifier where
  | singleChar (c : Char)
  | charRange (lo hi : Char)
deriving DecidableEq, Repr

inductive Token where
  | char (c : Char)
  | anyChar
  | anySequence
  | anyRecursiveSequence
  | anyWithin (specs : List CharSpecifier)
  | anyExcept (specs : List CharSpecifier)
deriving DecidableEq, Repr

def parseCharSpecifiers : List Char → List CharSpecifier
  | a :: '-' :: b :: rest => CharSpecifier.charRange a b :: parseCharSpecifiers rest
  | a :: rest => CharSpecifier.singleChar a :: parseCharSpecifiers rest
  | [] => []

def inCharSpecifiers (specs : List CharSpecifier) (c : Char) : Bool :=
  specs.any fun s =>
    match s with
    | CharSpecifier.singleChar sc => c == sc
    | CharSpecifier.charRange lo hi => decide (lo ≤ c) && decide (c ≤ hi)

/-- Collapse rule for consecutive `**` tokens from `Pattern::new`. -/
def pushRecursive (toks : List Token) : List Token :=
  if toks.length > 1 && toks.getLast? == some Token.anyRecursiveSequence then toks
  else toks ++ [Token.anyRecursiveSequence]

/-- The tokenizing loop of `Pattern::new`.  `prev` is the character before
the current position (`none` at the start of the pattern); a run of three
or more `*` and a `**` that is not a full path component are compile
errors, as is a `[` with no well-formed closing `]`.  The `fuel` argument
only makes the recursion structural (hence kernel-computable): every
recursive call consumes at least one character along with one unit of
fuel, so the fuel-exhaustion branch is unreachable from `Pattern.new`,
which supplies the pattern length as fuel. -/
def tokenizeAux : Nat → List Token → Option Char → List Char → Option (List Token)
  | _, toks, _, [] => some toks
  | 0, _, _, _ :: _ => none
  | fuel + 1, toks, _, '?' :: rest => tokenizeAux fuel (toks ++ [Token.anyChar]) (some '?') rest
  | _ + 1, _, _, '*' :: '*' :: '*' :: _ => none
  | fuel + 1, toks, prev, '*' :: '*' :: rest =>
    if prev == none || prev == some '/' then
      match rest with
      | '/' :: rest3 => tokenizeAux fuel (pushRecursive toks) (some '/') rest3
      | [] => some (pushRecursive toks)
      | _ => none
    else none
  | fuel + 1, toks, _, '*' :: rest =>
    tokenizeAux fuel (toks ++ [Token.anySequence]) (some '*') rest
  | fuel + 1, toks, _, '[' :: rest =>
    (match rest with
     | '!' :: x :: tail =>
       if tail.isEmpty then none
       else
         match tail.findIdx? (· == ']') with
         | some j =>
           tokenizeAux fuel (toks ++ [Token.anyExcept (parseCharSpecifiers (x :: tail.take j))])
             (some ']') (tail.drop (j + 1))
         | none => none
     | x :: y :: tail =>
       match (y :: tail).findIdx? (· == ']') with
       | some j =>
         tokenizeAux fuel (toks ++ [Token.anyWithin (parseCharSpecifiers (x :: (y :: tail).take j))])
           (some ']') ((y :: tail).drop (j + 1))
       | none => none
     | _ => none)
  | fuel + 1, toks, _, c :: rest => tokenizeAux fuel (toks ++ [Token.char c]) (some c) rest

def Pattern.new (pattern : String) : Option (List Token) :=
  tokenizeAux pattern.data.length [] none pattern.data

/-- Three-valued result of `Pattern::matches_from`. -/
inductive GlobResult where
  | ok
  | subFail
  | entireFail
deriving DecidableEq, Repr

def tokenMatchesChar : Token → Char → Bool
  | Token.anyChar, _ => true
  | Token.anyWithin specs, c => inCharSpecifiers specs c
  | Token.anyExcept specs, c => !inCharSpecifiers specs c
  | Token.char c2, c => c == c2
  | _, _ => false

/-- The consume loop of the `AnySequence` / `AnyRecursiveSequence` branch of
`matches_from`: `k` is the continuation matching the remaining tokens. -/
def starSearch (k : Bool → List Char → GlobResult) (isRec : Bool) (fs : Bool) :
    List Char → GlobResult
  | [] => k fs []
  | c :: cs =>
    let fs2 := c == '/'
    if isRec && !fs2 then starSearch k isRec fs2 cs
    else
      match k fs2 cs with
      | GlobResult.subFail => starSearch k isRec fs2 cs
      | r => r

def matchesFrom (fs : Bool) : List Token → List Char → GlobResult
  | [], file => if file.isEmpty then GlobResult.ok else GlobResult.subFail
  | Token.anySequence :: rest, file =>
    (match matchesFrom fs rest file with
     | GlobResult.subFail => starSearch (fun fs2 f => matchesFrom fs2 rest f) false fs file
     | r => r)
  | Token.anyRecursiveSequence :: rest, file =>
    (match matchesFrom fs rest file with
     | GlobResult.subFail => starSearch (fun fs2 f => matchesFrom fs2 rest f) true fs file
     | r => r)
  | tok :: rest, file =>
    match file with
    | [] => GlobResult.entireFail
    | c :: cs => if tokenMatchesChar tok c then matchesFrom (c == '/') rest cs
                 else GlobResult.subFail

def globMatches (tokens : List Token) (s : String) : Bool :=
  matchesFrom true tokens s.data == GlobResult.ok

/-! ## `src/matcher.rs` -/

/-- Rust `str::to_lowercase` (ASCII granularity). -/
def lowercase (s : String) : String := String.mk (s.data.map Char.toLower)

/-- Rust `str::contains(&str)`: substring containment. -/
def containsSubstr (hay needle : String) : Bool :=
  decide (needle.data <:+: hay.data)

/-- `pattern.split(',').map(|s| s.trim())`. -/
def splitPatterns (pattern : String) : List String :=
  (splitChar ',' pattern.data).map (fun l => String.mk (trimChars l))

/-- Body of the inner loop of `match_apps_fuzzy` / `match_actions_fuzzy`:
one sub-pattern `pat` tried against one candidate `name`, updating the
accumulated `matched` list. -/
def stepMatch (pat : String) (matched : List String) (name : String) : List String :=
  if matched.contains name then matched
  else if pat == name then matched ++ [name]
  else if strContainsChar pat '*' then
    match Pattern.new pat with
    | some toks =>
      if globMatches toks name then matched ++ [name]
      else if containsSubstr (lowercase name) (lowercase pat) then matched ++ [name]
      else matched
    | none =>
      if containsSubstr (lowercase name) (lowercase pat) then matched ++ [name]
      else matched
  else if containsSubstr (lowercase name) (lowercase pat) then matched ++ [name]
  else matched

def matchNamesFuzzy (names : List String) (pattern : String) : List String :=
  (splitPatterns pattern).foldl (fun matched pat => names.foldl (stepMatch pat) matched) []

def match_apps_fuzzy (apps : List String) (pattern : String) : List String :=
  matchNamesFuzzy apps pattern

def match_actions_fuzzy (actions : List String) (pattern : String) : List String :=
  if pattern == "all" then actions
  else matchNamesFuzzy actions pattern

/-! ## `src/config.rs`

`HashMap` fields are modelled as association lists whose `insertA`
overwrites the value bound to an existing key, matching `HashMap::insert`;
`pushEntry` models `entry(k).or_insert_with(Vec::new).push(x)` and
`ensureEntry` models `entry(k).or_insert_with(Vec::new)`. -/

def lookupA {α : Type} (l : List (String × α)) (k : String) : Option α :=
  match l with
  | [] => none
  | (k2, v) :: rest => if k2 == k then some v else lookupA rest k

def insertA {α : Type} (l : List (String × α)) (k : String) (v : α) : List (String × α) :=
  match l with
  | [] => [(k, v)]
  | (k2, v2) :: rest => if k2 == k then (k, v) :: rest else (k2, v2) :: insertA rest k v

def pushEntry (l : List (String × List String)) (k x : String) :
    List (String × List String) :=
  match l with
  | [] => [(k, [x])]
  | (k2, xs) :: rest =>
    if k2 == k then (k2, xs ++ [x]) :: rest else (k2, xs) :: pushEntry rest k x

def ensureEntry (l : List (String × List String)) (k : String) :
    List (String × List String) :=
  match l with
  | [] => [(k, [])]
  | (k2, xs) :: rest => if k2 == k then (k2, xs) :: rest else (k2, xs) :: ensureEntry rest k

structure Config where
  apps : List String
  actions : List (String × String)
  app_actions : List (String × List String)
  working_dirs : List (String × String)
  log_dirs : List (String × String)
  global_log_dir : Option String
  global_container : Option String
deriving DecidableEq, Repr

def Config.empty : Config :=
  { apps := [], actions := [], app_actions := [], working_dirs := [], log_dirs := [],
    global_log_dir := none, global_container := none }

def Config.get_command (cfg : Config) (app action : String) : Option String :=
  lookupA cfg.actions (app ++ ":" ++ action)

def Config.get_actions (cfg : Config) (app : String) : List String :=
  (lookupA cfg.app_actions app).getD []

structure ParseState where
  config : Config
  current_app : Option String
deriving DecidableEq, Repr

/-- Section-header recognition, `line.strip_prefix('[').and_then(|s| s.strip_suffix(']'))`. -/
def stripBrackets (line : String) : Option String :=
  match line.data with
  | '[' :: rest =>
    match rest.getLast? with
    | some ']' => some (String.mk rest.dropLast)
    | _ => none
  | _ => none

/-- Split at the first `=`, as `str::split_once('=')`. -/
def splitOnce (line : String) : Option (String × String) :=
  (splitOnceChar '=' line.data).map (fun p => (String.mk p.1, String.mk p.2))

/-- The `key=value` handling of `Config::from_file` (lines 65-98 of
`src/config.rs`). -/
def processKeyValue (st : ParseState) (key value : String) : ParseState :=
  match st.current_app with
  | some app =>
    if key == "working_dir" then
      { st with config :=
          { st.config with working_dirs := insertA st.config.working_dirs app value } }
    else if key == "log_dir" then
      { st with config :=
          { st.config with log_dirs := insertA st.config.log_dirs app value } }
    else
      { st with config :=
          { st.config with
              actions := insertA st.config.actions (app ++ ":" ++ key) value,
              app_actions := pushEntry st.config.app_actions app key } }
  | none =>
    if key == "log_dir" then
      { st with config := { st.config with global_log_dir := some value } }
    else if key == "container" then
      { st with config := { st.config with global_container := some value } }
    else st

def processLine (st : ParseState) (rawLine : String) : ParseState :=
  let line := trimStr rawLine
  if strIsEmpty line || strStartsWith line '#' then st
  else
    match stripBrackets line with
    | some inner =>
      let app_name := trimStr inner
      if strIsEmpty app_name then st
      else
        let cfg := st.config
        { config :=
            { cfg with
                apps := if cfg.apps.contains app_name then cfg.apps else cfg.apps ++ [app_name],
                app_actions := ensureEntry cfg.app_actions app_name },
          current_app := some app_name }
    | none =>
      match splitOnce line with
      | some kv =>
        let key := trimStr kv.1
        let value := trimStr kv.2
        if strIsEmpty key then st else processKeyValue st key value
      | none => st

def Config.from_file (content : String) : Except String Config :=
  let final := ((splitChar '\n' content.data).map String.mk).foldl processLine
    { config := Config.empty, current_app := none }
  if final.config.apps.isEmpty then
    Except.error "No applications found in configuration file"
  else Except.ok final.config

/-! ## Shell-quoting model

`squote` and `dquote` are the single- and double-quote characters.
`shell_escape` is the function of that name in `src/executor.rs`:
it wraps its argument in single quotes and replaces each embedded
single quote by the five-character sequence `squote dquote squote
dquote squote`. -/

def squote : Char := Char.ofNat 39

def dquote : Char := Char.ofNat 34

def escapeQuote (cs : List Char) : List Char :=
  match cs with
  | [] => []
  | c :: rest =>
    if c == squote then squote :: dquote :: squote :: dquote :: squote :: escapeQuote rest
    else c :: escapeQuote rest

def shell_escape (s : String) : String :=
  String.mk (squote :: escapeQuote s.data ++ [squote])

/-- Modelled from the spec: the escaping the specification prescribes,
single-quote wrapping with each embedded single quote replaced by the
four-character sequence `squote backslash squote squote` (written `'\''`
in the spec). -/
def escapeQuoteSpec (cs : List Char) : List Char :=
  match cs with
  | [] => []
  | c :: rest =>
    if c == squote then squote :: '\\' :: squote :: squote :: escapeQuoteSpec rest
    else c :: escapeQuoteSpec rest

/-- Modelled from the spec: the spec-prescribed escaping function as a whole. -/
def shell_escape_spec (s : String) : String :=
  String.mk (squote :: escapeQuoteSpec s.data ++ [squote])

inductive QuoteMode where
  | outside
  | insingle
  | indouble
deriving DecidableEq, Repr

/-- Modelled from the spec: POSIX shell quote removal for a single word,
used to express that a quoted string "round-trips" when executed under a
shell.  Sufficient for words whose characters outside single quotes are
quote characters only, as produced by `shell_escape`. -/
def unquoteWord : QuoteMode → List Char → Option (List Char)
  | QuoteMode.outside, [] => some []
  | QuoteMode.outside, c :: rest =>
    if c == squote then unquoteWord QuoteMode.insingle rest
    else if c == dquote then unquoteWord QuoteMode.indouble rest
    else (unquoteWord QuoteMode.outside rest).map (c :: ·)
  | QuoteMode.insingle, [] => none
  | QuoteMode.insingle, c :: rest =>
    if c == squote then unquoteWord QuoteMode.outside rest
    else (unquoteWord QuoteMode.insingle rest).map (c :: ·)
  | QuoteMode.indouble, [] => none
  | QuoteMode.indouble, c :: rest =>
    if c == dquote then unquoteWord QuoteMode.outside rest
    else (unquoteWord QuoteMode.indouble rest).map (c :: ·)

/-! ## `src/executor.rs` and `src/logger.rs`

Paths are strings; `/` marks an absolute path.  External effects are
supplied through `ExecEnv`: `fsExists` is `Path::exists`, `createOk` is
whether `File::create` on a log file succeeds, `createDirOk` is whether
`fs::create_dir_all` on a log directory succeeds, `status` is the exit
status the OS reports for the spawned subprocess (`none` when the process
was terminated by a signal, so `status.code()` is `None`), and `timestamp`
is the formatted local time.  The observable actions of an execution are
returned as an `Event` trace in program order. -/

structure ExecEnv where
  scriptDir : String
  home : Option String
  fsExists : String → Bool
  createOk : String → Bool
  createDirOk : String → Bool
  status : Option Int
  timestamp : String

inductive Event where
  | genLogPath (path : String)
  | createLogFile (path : String)
  | spawn (program : String) (args : List String) (cwd : Option String)
deriving DecidableEq, Repr

def pathJoin (base p : String) : String :=
  if strEndsWith base '/' then base ++ p else base ++ "/" ++ p

def expand_path (path : String) (script_dir : String) (home : Option String) : String :=
  let expanded :=
    match path.data with
    | '~' :: rest =>
      match home with
      | some h => h ++ String.mk rest
      | none => path
    | _ => path
  if strStartsWith expanded '/' then expanded else pathJoin script_dir expanded

def resolve_working_dir (working_dir : Option String) (is_container : Bool)
    (script_dir : String) (home : Option String) (fsExists : String → Bool) :
    Except String (Option String) :=
  if is_container then
    match working_dir with
    | some wd => Except.ok (some (expand_path wd script_dir home))
    | none => Except.ok none
  else
    let wd :=
      match working_dir with
      | some w => expand_path w script_dir home
      | none => script_dir
    if fsExists wd then Except.ok (some wd)
    else Except.error ("Working directory does not exist: " ++ wd)

/-- `Logger::generate_log_path` from `src/logger.rs`. -/
def generate_log_path (app action : String) (global_log_dir app_log_dir : Option String)
    (script_dir : String) (home : Option String) (createDirOk : String → Bool)
    (timestamp : String) : String :=
  let log_dir :=
    match app_log_dir with
    | some d => expand_path d script_dir home
    | none =>
      match global_log_dir with
      | some d => expand_path d script_dir home
      | none => pathJoin script_dir "logs"
  let fileName := timestamp ++ "_" ++ app ++ "_" ++ action ++ ".log"
  if createDirOk log_dir then pathJoin log_dir fileName
  else pathJoin script_dir fileName

def build_full_command (command : String) (working_dir : Option String)
    (container_command : Option String) : String :=
  match container_command with
  | some c =>
    match working_dir with
    | some wd => c ++ " bash -lc \"cd " ++ shell_escape wd ++ " && " ++ command ++ "\""
    | none => c ++ " bash -lc \"" ++ command ++ "\""
  | none => "bash -c " ++ shell_escape command

def splitWhitespace (s : String) : List String :=
  ((splitPred Char.isWhitespace s.data).filter (fun t => !t.isEmpty)).map String.mk

def execute_in_container (container_command command : String)
    (working_dir : Option String) (log_file : String) (show_output : Bool)
    (env : ExecEnv) : Except String Int × List Event :=
  let container_cmd :=
    match working_dir with
    | some wd => "cd " ++ shell_escape wd ++ " && " ++ command
    | none => command
  let cmd_parts := splitWhitespace container_command ++ ["bash", "-lc", container_cmd]
  let program := cmd_parts.headD ""
  let args := cmd_parts.tail
  if show_output then
    (Except.ok (env.status.getD 1), [Event.spawn program args none])
  else if env.createOk log_file then
    (Except.ok (env.status.getD 1), [Event.createLogFile log_file, Event.spawn program args none])
  else (Except.error "LogFileCreateError", [])

def execute_direct (command : String) (working_dir : Option String) (log_file : String)
    (show_output : Bool) (env : ExecEnv) : Except String Int × List Event :=
  if show_output then
    let tee_cmd := command ++ " 2>&1 | tee " ++ shell_escape log_file
    (Except.ok (env.status.getD 1), [Event.spawn "bash" ["-c", tee_cmd] working_dir])
  else if env.createOk log_file then
    (Except.ok (env.status.getD 1),
     [Event.createLogFile log_file, Event.spawn "bash" ["-c", command] working_dir])
  else (Except.error "LogFileCreateError", [])

/-- The host-mode resolved working directory of `execute_command`: the
configured directory expanded against the script directory, or the script
directory itself when none is configured. -/
def resolvedHostDir (cfg : Config) (app : String) (env : ExecEnv) : String :=
  match lookupA cfg.working_dirs app with
  | some w => expand_path w env.scriptDir env.home
  | none => env.scriptDir

def execute_command (cfg : Config) (app action : String)
    (container_command : Option String) (show_output : Bool) (env : ExecEnv) :
    Except String Bool × List Event :=
  match cfg.get_command app action with
  | none => (Except.error ("No command configured for " ++ action ++ " in " ++ app), [])
  | some command =>
    let script_dir := env.scriptDir
    let working_dir := lookupA cfg.working_dirs app
    match resolve_working_dir working_dir container_command.isSome script_dir env.home
        env.fsExists with
    | Except.error e => (Except.error e, [])
    | Except.ok working_dir_path =>
      let log_file := generate_log_path app action cfg.global_log_dir
        (lookupA cfg.log_dirs app) script_dir env.home env.createDirOk env.timestamp
      let r :=
        match container_command with
        | some c => execute_in_container c command working_dir log_file show_output env
        | none => execute_direct command working_dir_path log_file show_output env
      match r.1 with
      | Except.error e => (Except.error e, Event.genLogPath log_file :: r.2)
      | Except.ok exit_code => (Except.ok (exit_code == 0), Event.genLogPath log_file :: r.2)

/-! ## `execute_ci_mode` -/

inductive CiError where
  | noApplicationsMatched
  | noActionsMatched
deriving DecidableEq, Repr

instance {ε α : Type} [DecidableEq ε] [DecidableEq α] : DecidableEq (Except ε α) :=
  fun a b =>
    match a, b with
    | Except.error e1, Except.error e2 =>
      if h : e1 = e2 then Decidable.isTrue (by rw [h])
      else Decidable.isFalse (by intro hh; cases hh; exact h rfl)
    | Except.ok v1, Except.ok v2 =>
      if h : v1 = v2 then Decidable.isTrue (by rw [h])
      else Decidable.isFalse (by intro hh; cases hh; exact h rfl)
    | Except.error _, Except.ok _ => Decidable.isFalse (by intro hh; cases hh)
    | Except.ok _, Except.error _ => Decidable.isFalse (by intro hh; cases hh)

/-- The result of awaiting one spawned task: `joinOk r` is
`handle.await = Ok(r)` where `r` is the task's own `Result<bool>`, and
`joinErr` is a `JoinError`. -/
inductive Outcome where
  | joinOk (result : Except String Bool)
  | joinErr
deriving DecidableEq, Repr

def outcomeSucceeded : Outcome → Bool
  | Outcome.joinOk (Except.ok true) => true
  | _ => false

structure Summary where
  total_success : Nat
  total_failure : Nat
  failed_commands : List String
deriving DecidableEq, Repr

/-- One iteration of the result-collection loop of `execute_ci_mode`
(lines 93-108 of `src/executor.rs`): the `match handle.await` arms. -/
def collectStep (s : Summary) (h : String × String × Outcome) : Summary :=
  match h.2.2 with
  | Outcome.joinOk (Except.ok true) => { s with total_success := s.total_success + 1 }
  | Outcome.joinOk (Except.ok false) =>
    { s with total_failure := s.total_failure + 1,
             failed_commands := s.failed_commands ++ [h.1 ++ " - " ++ h.2.1] }
  | Outcome.joinOk (Except.error _) =>
    { s with total_failure := s.total_failure + 1,
             failed_commands := s.failed_commands ++ [h.1 ++ " - " ++ h.2.1] }
  | Outcome.joinErr =>
    { s with total_failure := s.total_failure + 1,
             failed_commands := s.failed_commands ++ [h.1 ++ " - " ++ h.2.1] }

/-- The result-collection loop of `execute_ci_mode` (lines 88-108 of
`src/executor.rs`), iterating over the handles in dispatch order. -/
def collectResults (handles : List (String × String × Outcome)) : Summary :=
  handles.foldl collectStep
    { total_success := 0, total_failure := 0, failed_commands := [] }

/-- The process exit code chosen at the end of `execute_ci_mode`; the
source computes it in two branches (multi-action summary and single
action), both exiting 1 exactly when `total_failure > 0`. -/
def ciExitCode (is_single : Bool) (s : Summary) : Nat :=
  if is_single then (if s.total_failure > 0 then 1 else 0)
  else (if s.total_failure > 0 then 1 else 0)

/-- The resolution phase of `execute_ci_mode` (lines 17-71): application
matching, per-application action matching with the empty-match warning
path, and the `found_any_action` / empty-handles abort. -/
def resolve_targets (cfg : Config) (app_pattern action_pattern : String) :
    Except CiError (List (String × String)) :=
  let matched_apps := match_apps_fuzzy cfg.apps app_pattern
  if matched_apps.isEmpty then Except.error CiError.noApplicationsMatched
  else
    let acc := matched_apps.foldl
      (fun (acc : Bool × List (String × String)) app =>
        let matched_actions := match_actions_fuzzy (cfg.get_actions app) action_pattern
        if matched_actions.isEmpty then acc
        else (true, acc.2 ++ matched_actions.map (fun a => (app, a))))
      (false, [])
    if !acc.1 || acc.2.isEmpty then Except.error CiError.noActionsMatched
    else Except.ok acc.2

/-- `execute_ci_mode`, with the per-target subprocess outcomes supplied by
the oracle `outcome`, indexed by dispatch position.  The returned `Nat` is
the process exit code passed to `std::process::exit`. -/
def execute_ci_mode (cfg : Config) (app_pattern action_pattern : String)
    (outcome : Nat → Outcome) : Except CiError (Summary × Nat) :=
  match resolve_targets cfg app_pattern action_pattern with
  | Except.error e => Except.error e
  | Except.ok targets =>
    let handles := targets.enum.map (fun p => (p.2.1, p.2.2, outcome p.1))
    let s := collectResults handles
    Except.ok (s, ciExitCode (targets.length == 1) s)

/-- The handle list of `execute_ci_mode` in dispatch order, with the awaited
outcome attached to each target. -/
def dispatchHandles (targets : List (String × String)) (outcome : Nat → Outcome) :
    List (String × String × Outcome) :=
  targets.enum.map (fun p => (p.2.1, p.2.2, outcome p.1))

/-- The dispatched targets whose outcomes are counted as failures, in
dispatch order. -/
def failedHandles (targets : List (String × String)) (outcome : Nat → Outcome) :
    List (String × String × Outcome) :=
  (dispatchHandles targets outcome).filter (fun x => !outcomeSucceeded x.2.2)

/-! ## Concrete instances used by witnesses -/

def cfgDemo : Config :=
  { Config.empty with
    apps := ["a1", "a2", "a3"],
    actions := [("a1:go", "c1"), ("a2:go", "c2"), ("a3:go", "c3")],
    app_actions := [("a1", ["go"]), ("a2", ["go"]), ("a3", ["go"])] }

def envDemo : ExecEnv where
  scriptDir := "/sd"
  home := none
  fsExists := fun _ => true
  createOk := fun _ => true
  createDirOk := fun _ => true
  status := some 0
  timestamp := "t"

def cfgWarn : Config :=
  { Config.empty with
    apps := ["a1", "a2"],
    actions := [("a2:go", "c2")],
    app_actions := [("a1", []), ("a2", ["go"])] }

def cfgNoDir : Config :=
  { cfgDemo with working_dirs := [("a1", "/nope")] }

def envNoDir : ExecEnv :=
  { envDemo with fsExists := fun _ => false }

def outcomeDemo : Nat → Outcome :=
  fun i => if i == 1 then Outcome.joinOk (Except.ok false) else Outcome.joinOk (Except.ok true)

def stDup : ParseState :=
  processLine (processLine { config := Config.empty, current_app := none } "[A]") "build=one"

/-! ## Helper lemmas about the matcher -/

theorem stepMatch_eq_or (pat : String) (m : List String) (name : String) :
    stepMatch pat m name = m ∨ stepMatch pat m name = m ++ [name] := by
  unfold stepMatch
  repeat' split
  all_goals simp

theorem mem_stepMatch_of_mem (pat : String) (m : List String) (name x : String)
    (hx : x ∈ m) : x ∈ stepMatch pat m name := by
  rcases stepMatch_eq_or pat m name with h | h <;> rw [h] <;> simp [hx]

theorem mem_stepMatch_cases (pat : String) (m : List String) (name x : String)
    (hx : x ∈ stepMatch pat m name) : x ∈ m ∨ x = name := by
  rcases stepMatch_eq_or pat m name with h | h
  · rw [h] at hx; exact Or.inl hx
  · rw [h] at hx; simpa using hx

theorem mem_foldl_stepMatch_of_mem (pat : String) (names : List String) :
    ∀ (m : List String) (x : String), x ∈ m → x ∈ names.foldl (stepMatch pat) m := by
  induction names with
  | nil => intro m x hx; simpa using hx
  | cons a rest ih =>
    intro m x hx
    simp only [List.foldl_cons]
    exact ih _ x (mem_stepMatch_of_mem pat m a x hx)

theorem foldl_stepMatch_subset (pat : String) (names : List String) :
    ∀ (m : List String) (x : String), x ∈ names.foldl (stepMatch pat) m →
      x ∈ m ∨ x ∈ names := by
  induction names with
  | nil => intro m x hx; exact Or.inl (by simpa using hx)
  | cons a rest ih =>
    intro m x hx
    simp only [List.foldl_cons] at hx
    rcases ih _ x hx with h | h
    · rcases mem_stepMatch_cases pat m a x h with h2 | h2
      · exact Or.inl h2
      · exact Or.inr (by simp [h2])
    · exact Or.inr (by simp [h])

theorem containsSubstr_empty_pat (s : String) : containsSubstr s "" = true := by
  unfold containsSubstr
  simp only [decide_eq_true_eq]
  exact List.nil_infix

theorem mem_stepMatch_empty_pat (m : List String) (name : String) :
    name ∈ stepMatch "" m name := by
  unfold stepMatch
  by_cases h1 : m.contains name = true
  · rw [if_pos h1]
    exact List.elem_iff.mp h1
  · rw [if_neg h1]
    by_cases h2 : (("" : String) == name) = true
    · rw [if_pos h2]
      simp
    · rw [if_neg h2]
      have h3 : strContainsChar "" '*' = false := rfl
      have h4 : containsSubstr (lowercase name) (lowercase "") = true :=
        containsSubstr_empty_pat (lowercase name)
      simp [h3, h4]

theorem mem_foldl_stepMatch_empty :
    ∀ (names m : List String) (n : String), n ∈ names → n ∈ names.foldl (stepMatch "") m := by
  intro names
  induction names with
  | nil => intro m n hn; simp at hn
  | cons a rest ih =>
    intro m n hn
    simp only [List.foldl_cons]
    rcases List.mem_cons.mp hn with h | h
    · subst h
      exact mem_foldl_stepMatch_of_mem "" rest _ n (mem_stepMatch_empty_pat m n)
    · exact ih _ n h

theorem mem_outer_foldl_of_mem (names : List String) :
    ∀ (pats m : List String) (x : String), x ∈ m →
      x ∈ pats.foldl (fun mm pat => names.foldl (stepMatch pat) mm) m := by
  intro pats
  induction pats with
  | nil => intro m x hx; simpa using hx
  | cons p rest ih =>
    intro m x hx
    simp only [List.foldl_cons]
    exact ih _ x (mem_foldl_stepMatch_of_mem p names m x hx)

theorem mem_outer_foldl_of_empty_pat (names : List String) :
    ∀ (pats m : List String) (n : String), "" ∈ pats → n ∈ names →
      n ∈ pats.foldl (fun mm pat => names.foldl (stepMatch pat) mm) m := by
  intro pats
  induction pats with
  | nil => intro m n hp _; simp at hp
  | cons p rest ih =>
    intro m n hp hn
    simp only [List.foldl_cons]
    rcases List.mem_cons.mp hp with h | h
    · cases h
      exact mem_outer_foldl_of_mem names rest _ n (mem_foldl_stepMatch_empty names m n hn)
    · exact ih _ n h hn

theorem outer_foldl_subset (names : List String) :
    ∀ (pats m : List String) (x : String),
      x ∈ pats.foldl (fun mm pat => names.foldl (stepMatch pat) mm) m →
      x ∈ m ∨ x ∈ names := by
  intro pats
  induction pats with
  | nil => intro m x hx; exact Or.inl (by simpa using hx)
  | cons p rest ih =>
    intro m x hx
    simp only [List.foldl_cons] at hx
    rcases ih _ x hx with h | h
    · exact foldl_stepMatch_subset p names m x h
    · exact Or.inr h


/-! ## Claim theorems for the matcher -/

/-- Claim C7: a literal, case-sensitive action pattern `all` makes the
matcher return every declared action of the application unchanged and in
declared order, bypassing the exact/glob/substring rules. -/
theorem action_pattern_all_selects_all (actions : List String) :
    match_actions_fuzzy actions "all" = actions := by
  simp [match_actions_fuzzy]

/-- Claim C5 counterexample: the sub-pattern `a?c` contains the glob
wildcard `?` and glob-matches the candidate `abc` (the glob crate compiles
it and its matcher accepts), yet neither matcher returns the candidate:
the code consults the glob matcher only for sub-patterns containing `*`. -/
theorem glob_only_for_star_counterexample :
    Pattern.new "a?c" = some [Token.char 'a', Token.anyChar, Token.char 'c'] ∧
    globMatches [Token.char 'a', Token.anyChar, Token.char 'c'] "abc" = true ∧
    match_apps_fuzzy ["abc"] "a?c" = [] ∧
    match_actions_fuzzy ["abc"] "a?c" = [] := by
  decide

/-- Shape of `stepMatch` when the sub-pattern contains `*` and the glob
pattern compiles: the nested glob branch becomes a plain `if` chain. -/
theorem stepMatch_glob_some (pat name : String) (toks : List Token) (m : List String)
    (hstar : strContainsChar pat '*' = true) (hnew : Pattern.new pat = some toks) :
    stepMatch pat m name =
      (if m.contains name then m
       else if pat == name then m ++ [name]
       else if globMatches toks name then m ++ [name]
       else if containsSubstr (lowercase name) (lowercase pat) then m ++ [name]
       else m) := by
  unfold stepMatch
  rw [hstar, hnew]
  exact rfl

/-- Claim C5 (amended): the matcher applies the glob rule only to
sub-patterns containing `*`: for such a sub-pattern that compiles and
glob-matches the candidate, the candidate is matched; a sub-pattern
without `*` (even one containing `?` or brackets) is decided by the
exact-equality and case-insensitive-substring rules alone. -/
theorem glob_applied_only_for_star :
    (∀ (pat name : String) (toks : List Token) (m : List String),
       strContainsChar pat '*' = true → Pattern.new pat = some toks →
       globMatches toks name = true → name ∈ stepMatch pat m name) ∧
    (∀ (pat : String) (m : List String) (name : String),
       strContainsChar pat '*' = false →
       stepMatch pat m name =
         (if m.contains name then m
          else if pat == name then m ++ [name]
          else if containsSubstr (lowercase name) (lowercase pat) then m ++ [name]
          else m)) := by
  constructor
  · intro pat name toks m hstar hnew hglob
    rw [stepMatch_glob_some pat name toks m hstar hnew, hglob]
    split_ifs with h1 h2 h3 h4
    · exact List.elem_iff.mp h1
    · simp
    · simp
    · exact absurd rfl h3
    · exact absurd rfl h3
  · intro pat m name hstar
    unfold stepMatch
    rw [hstar]
    exact rfl

/-- Claim C5 witness: concrete instances of both amended conjuncts, at
sub-patterns `a*` (glob applied) and `a?c` (glob bypassed). -/
theorem glob_applied_only_for_star_witness :
    "abc" ∈ stepMatch "a*" [] "abc" ∧ stepMatch "a?c" [] "abc" = [] := by
  constructor
  · exact glob_applied_only_for_star.1 "a*" "abc" [Token.char 'a', Token.anySequence] []
      (by decide) (by decide) (by decide)
  · have h := glob_applied_only_for_star.2 "a?c" [] "abc" (by decide)
    rw [h]
    decide

/-- Claim C10: a sub-pattern that contains `*` but fails to compile as a
glob pattern produces no error; the matcher silently falls back to the
exact-equality and case-insensitive-substring rules for that sub-pattern. -/
theorem invalid_glob_falls_through (pat : String) (m : List String) (name : String)
    (hstar : strContainsChar pat '*' = true) (hfail : Pattern.new pat = none) :
    stepMatch pat m name =
      (if m.contains name then m
       else if pat == name then m ++ [name]
       else if containsSubstr (lowercase name) (lowercase pat) then m ++ [name]
       else m) := by
  unfold stepMatch
  rw [hstar, hfail]
  exact rfl

/-- Claim C10 witness: `a**b` contains `*` but is rejected by the glob
compiler (`**` must form a full path component), and the sub-pattern still
matches by case-insensitive substring containment. -/
theorem invalid_glob_falls_through_witness :
    stepMatch "a**b" [] "xa**by" = ["xa**by"] := by
  have h := invalid_glob_falls_through "a**b" [] "xa**by" (by decide) (by decide)
  rw [h]
  decide

/-- Claim C9: a pattern containing an empty comma-separated component (for
example a trailing comma) matches every candidate through the
case-insensitive substring rule, so both matchers return exactly the full
candidate list (every candidate is matched, and nothing outside it). -/
theorem empty_subpattern_matches_all (pattern : String) (names : List String) (n : String)
    (hempty : "" ∈ splitPatterns pattern) (hn : n ∈ names) :
    n ∈ match_apps_fuzzy names pattern ∧ n ∈ match_actions_fuzzy names pattern ∧
    ∀ x ∈ match_apps_fuzzy names pattern, x ∈ names := by
  have h1 : n ∈ matchNamesFuzzy names pattern :=
    mem_outer_foldl_of_empty_pat names (splitPatterns pattern) [] n hempty hn
  have hall : pattern ≠ "all" := by
    intro h
    subst h
    revert hempty
    decide
  have hballs : (pattern == "all") = false := beq_eq_false_iff_ne.mpr hall
  refine ⟨h1, ?_, ?_⟩
  · unfold match_actions_fuzzy
    rw [hballs]
    simpa using h1
  · intro x hx
    rcases outer_foldl_subset names (splitPatterns pattern) [] x hx with h | h
    · simp at h
    · exact h

/-- Claim C9 witness: the pattern `b,` has the empty sub-pattern, so both
matchers match every candidate (here the candidate `a`, which matches no
nonempty sub-pattern) and return nothing outside the candidate list. -/
theorem empty_subpattern_matches_all_witness :
    "a" ∈ match_apps_fuzzy ["a", "b"] "b," ∧
    "a" ∈ match_actions_fuzzy ["a", "b"] "b," ∧
    ∀ x ∈ match_apps_fuzzy ["a", "b"] "b,", x ∈ ["a", "b"] :=
  empty_subpattern_matches_all "b," ["a", "b"] "a" (by decide) (by decide)

/-! ## Claim theorems for shell escaping (C6) -/

theorem squote_beq_squote : (squote == squote) = true := by decide

theorem squote_beq_dquote : (squote == dquote) = false := by decide

theorem dquote_beq_squote : (dquote == squote) = false := by decide

theorem dquote_beq_dquote : (dquote == dquote) = true := by decide

theorem unquote_escape (l : List Char) :
    unquoteWord QuoteMode.insingle (escapeQuote l ++ [squote]) = some l := by
  induction l with
  | nil =>
    simp [escapeQuote, unquoteWord, squote_beq_squote]
  | cons c rest ih =>
    by_cases hc : c = squote
    · subst hc
      simp [escapeQuote, unquoteWord, squote_beq_squote, squote_beq_dquote,
        dquote_beq_squote, dquote_beq_dquote, ih]
    · have hb : (c == squote) = false := beq_eq_false_iff_ne.mpr hc
      simp [escapeQuote, unquoteWord, hb, ih]

/-- Claim C6 counterexample: on the argument `a'b` the code's
`shell_escape` produces the close-quote, double-quoted-quote, reopen-quote
sequence `'"'"'` — not the backslash sequence `'\''` the claim names. -/
theorem shell_escape_sequence_counterexample :
    shell_escape (String.mk ['a', squote, 'b']) =
      String.mk [squote, 'a', squote, dquote, squote, dquote, squote, 'b', squote] ∧
    shell_escape (String.mk ['a', squote, 'b']) ≠
      shell_escape_spec (String.mk ['a', squote, 'b']) := by
  decide

/-- Claim C6 (amended): `shell_escape` wraps its argument in single quotes
and replaces every embedded single quote by the sequence close-quote,
double-quoted single quote, reopen-quote (`'"'"'`); this still round-trips:
POSIX shell quote removal applied to the built word reproduces the
original argument exactly, for every string. -/
theorem shell_escape_roundtrip (s : String) :
    unquoteWord QuoteMode.outside (shell_escape s).data = some s.data := by
  show unquoteWord QuoteMode.outside (squote :: (escapeQuote s.data ++ [squote])) =
    some s.data
  simp [unquoteWord, squote_beq_squote, unquote_escape]

/-! ## Claim theorems for the configuration parser (C8) -/

theorem lookupA_insertA_self {α : Type} (l : List (String × α)) (k : String) (v : α) :
    lookupA (insertA l k v) k = some v := by
  induction l with
  | nil => simp [insertA, lookupA]
  | cons p rest ih =>
    obtain ⟨k2, v2⟩ := p
    by_cases h : k2 = k
    · subst h
      simp [insertA, lookupA]
    · have hb : (k2 == k) = false := beq_eq_false_iff_ne.mpr h
      simp [insertA, lookupA, hb, ih]

theorem lookupA_pushEntry_self (l : List (String × List String)) (k x : String) :
    lookupA (pushEntry l k x) k = some ((lookupA l k).getD [] ++ [x]) := by
  induction l with
  | nil => simp [pushEntry, lookupA]
  | cons p rest ih =>
    obtain ⟨k2, xs⟩ := p
    by_cases h : k2 = k
    · subst h
      simp [pushEntry, lookupA]
    · have hb : (k2 == k) = false := beq_eq_false_iff_ne.mpr h
      simp [pushEntry, lookupA, hb, ih]

/-- Claim C8 counterexample: declaring the key `build` twice in one
application section leaves TWO entries named `build` in the ordered action
list — the identifier is not unique within the list and the earlier entry
is not removed — while the command lookup is bound to the last value. -/
theorem duplicate_action_key_counterexample :
    (Config.from_file "[A]\nbuild=one\nbuild=two").map
        (fun c => (c.get_actions "A", c.get_command "A" "build")) =
      Except.ok (["build", "build"], some "two") := by
  decide

/-- Claim C8 (amended): when an action key is declared again in an
application section, the key=value handler overwrites the command bound to
it (the command lookup returns the last declared value) but appends the
key to the application's ordered action list again, so a duplicated
identifier appears in the list once per declaration instead of once. -/
theorem duplicate_action_key_behavior (st : ParseState) (app key value : String)
    (happ : st.current_app = some app)
    (h1 : key ≠ "working_dir") (h2 : key ≠ "log_dir") :
    (processKeyValue st key value).config.get_command app key = some value ∧
    (processKeyValue st key value).config.get_actions app =
      st.config.get_actions app ++ [key] := by
  have hb1 : (key == "working_dir") = false := beq_eq_false_iff_ne.mpr h1
  have hb2 : (key == "log_dir") = false := beq_eq_false_iff_ne.mpr h2
  have hred : processKeyValue st key value =
      { st with config :=
          { st.config with
              actions := insertA st.config.actions (app ++ ":" ++ key) value,
              app_actions := pushEntry st.config.app_actions app key } } := by
    unfold processKeyValue
    rw [happ]
    simp [hb1, hb2]
  rw [hred]
  constructor
  · exact lookupA_insertA_self st.config.actions (app ++ ":" ++ key) value
  · show (lookupA (pushEntry st.config.app_actions app key) app).getD [] =
      (lookupA st.config.app_actions app).getD [] ++ [key]
    rw [lookupA_pushEntry_self]
    rfl

/-- Claim C8 witness: in the parse state reached after `[A]` and
`build=one`, processing the later declaration `build=two` rebinds the
command to `two` and leaves the duplicate in the ordered action list. -/
theorem duplicate_action_key_behavior_witness :
    (processKeyValue stDup "build" "two").config.get_command "A" "build" = some "two" ∧
    (processKeyValue stDup "build" "two").config.get_actions "A" = ["build", "build"] := by
  have h := duplicate_action_key_behavior stDup "A" "build" "two" (by decide)
    (by decide) (by decide)
  refine ⟨h.1, ?_⟩
  rw [h.2]
  decide

/-! ## Claim theorems for subprocess exit handling (C2) and working-directory
validation (C4) -/

theorem execute_in_container_ok_code (cc cmd : String) (wd : Option String)
    (lf : String) (so : Bool) (env : ExecEnv) (code : Int)
    (h : (execute_in_container cc cmd wd lf so env).1 = Except.ok code) :
    code = env.status.getD 1 := by
  simp only [execute_in_container] at h
  split_ifs at h <;> simp_all

theorem execute_direct_ok_code (cmd : String) (wd : Option String)
    (lf : String) (so : Bool) (env : ExecEnv) (code : Int)
    (h : (execute_direct cmd wd lf so env).1 = Except.ok code) :
    code = env.status.getD 1 := by
  simp only [execute_direct] at h
  split_ifs at h <;> simp_all

/-- Claim C2: whenever `execute_command` completes with a success flag, the
flag is true exactly when the OS reported exit status 0 for the spawned
subprocess; a signal-terminated subprocess (no exit status available) is
treated as exit code 1 and therefore reported as a failure. -/
theorem success_iff_exit_zero (cfg : Config) (app action : String)
    (container_command : Option String) (show_output : Bool) (env : ExecEnv)
    (b : Bool) (events : List Event)
    (h : execute_command cfg app action container_command show_output env =
      (Except.ok b, events)) :
    (b = true ↔ env.status = some 0) ∧ (env.status = none → b = false) := by
  have hb : b = (env.status.getD 1 == 0) := by
    unfold execute_command at h
    dsimp only at h
    split at h
    · simp at h
    · rcases hcc : container_command with _ | c <;> rw [hcc] at h <;> dsimp only at h
      · split at h
        · simp at h
        · split at h
          · simp at h
          · rename_i exit_code heq
            have hcode := execute_direct_ok_code _ _ _ _ _ _ heq
            simp only [Prod.mk.injEq, Except.ok.injEq] at h
            rw [← h.1, hcode]
      · split at h
        · simp at h
        · split at h
          · simp at h
          · rename_i exit_code heq
            have hcode := execute_in_container_ok_code _ _ _ _ _ _ _ heq
            simp only [Prod.mk.injEq, Except.ok.injEq] at h
            rw [← h.1, hcode]
  subst hb
  cases hs : env.status with
  | none => simp [hs]
  | some v =>
    constructor
    · simp [beq_iff_eq]
    · intro hnone
      simp at hnone

/-- Claim C2 witness: with the OS reporting exit status 0, a host execution
returns the success flag true. -/
theorem success_iff_exit_zero_witness :
    (true = true ↔ envDemo.status = some 0) ∧ (envDemo.status = none → true = false) :=
  success_iff_exit_zero cfgDemo "a1" "go" none false envDemo true
    [Event.genLogPath "/sd/logs/t_a1_go.log", Event.createLogFile "/sd/logs/t_a1_go.log",
     Event.spawn "bash" ["-c", "c1"] (some "/sd")]
    (by decide)

/-- Claim C4: a host-mode (non-container) execution whose resolved working
directory does not exist fails with the working-directory error before any
log file path is generated, any log file is created, or any subprocess is
spawned — the event trace is empty; and container-mode working-directory
resolution never consults the host filesystem, so a nonexistent host path
never produces this error there. -/
theorem working_dir_validation :
    (∀ (cfg : Config) (app action : String) (show_output : Bool) (env : ExecEnv)
        (cmd : String),
        cfg.get_command app action = some cmd →
        env.fsExists (resolvedHostDir cfg app env) = false →
        execute_command cfg app action none show_output env =
          (Except.error ("Working directory does not exist: " ++
            resolvedHostDir cfg app env), [])) ∧
    (∀ (wd : Option String) (script_dir : String) (home : Option String)
        (fsE : String → Bool),
        resolve_working_dir wd true script_dir home fsE =
          Except.ok (wd.map (fun w => expand_path w script_dir home))) := by
  constructor
  · intro cfg app action show_output env cmd hcmd hfs
    have hres : resolve_working_dir (lookupA cfg.working_dirs app)
        (none : Option String).isSome env.scriptDir env.home env.fsExists =
        Except.error ("Working directory does not exist: " ++ resolvedHostDir cfg app env) := by
      show (if env.fsExists (resolvedHostDir cfg app env) then
            Except.ok (some (resolvedHostDir cfg app env))
          else
            Except.error ("Working directory does not exist: " ++
              resolvedHostDir cfg app env)) =
        Except.error ("Working directory does not exist: " ++ resolvedHostDir cfg app env)
      rw [hfs]
      simp
    unfold execute_command
    rw [hcmd]
    dsimp only
    rw [hres]
  · intro wd script_dir home fsE
    cases wd <;> rfl

/-- Claim C4 witness: with every host path reported nonexistent, a host
execution of an application whose working directory is `/nope` fails with
the working-directory error and an empty event trace, while container-mode
resolution of the same directory succeeds without consulting the
filesystem. -/
theorem working_dir_validation_witness :
    execute_command cfgNoDir "a1" "go" none false envNoDir =
      (Except.error ("Working directory does not exist: /nope"), []) ∧
    resolve_working_dir (some "/nope") true "/sd" none (fun _ => false) =
      Except.ok (some "/nope") := by
  constructor
  · exact working_dir_validation.1 cfgNoDir "a1" "go" false envNoDir "c1"
      (by decide) (by decide)
  · exact working_dir_validation.2 (some "/nope") "/sd" none (fun _ => false)

/-! ## Claim theorems for CI-mode resolution (C3) and aggregation (C1) -/

theorem resolve_fold_eq (cfg : Config) (acp : String) :
    ∀ (apps : List String) (b0 : Bool) (l0 : List (String × String)),
      apps.foldl
        (fun (acc : Bool × List (String × String)) app =>
          if (match_actions_fuzzy (cfg.get_actions app) acp).isEmpty then acc
          else (true, acc.2 ++ (match_actions_fuzzy (cfg.get_actions app) acp).map
            (fun a => (app, a))))
        (b0, l0) =
      (b0 || apps.any (fun app => !(match_actions_fuzzy (cfg.get_actions app) acp).isEmpty),
       l0 ++ apps.flatMap
         (fun app => (match_actions_fuzzy (cfg.get_actions app) acp).map
           (fun a => (app, a)))) := by
  intro apps
  induction apps with
  | nil => intro b0 l0; simp
  | cons a rest ih =>
    intro b0 l0
    simp only [List.foldl_cons, List.any_cons, List.flatMap_cons]
    by_cases h : (match_actions_fuzzy (cfg.get_actions a) acp).isEmpty = true
    · rw [if_pos h, ih]
      have hnil : match_actions_fuzzy (cfg.get_actions a) acp = [] := by
        cases hm : match_actions_fuzzy (cfg.get_actions a) acp
        · rfl
        · rw [hm] at h
          simp at h
      rw [hnil]
      simp
    · rw [if_neg h, ih]
      rw [Bool.not_eq_true] at h
      simp [h, List.append_assoc]

theorem any_nonempty_eq_flatMap_nonempty (cfg : Config) (acp : String) :
    ∀ apps : List String,
      apps.any (fun app => !(match_actions_fuzzy (cfg.get_actions app) acp).isEmpty) =
      !(apps.flatMap (fun app => (match_actions_fuzzy (cfg.get_actions app) acp).map
          (fun a => (app, a)))).isEmpty := by
  intro apps
  induction apps with
  | nil => simp
  | cons a rest ih =>
    simp only [List.any_cons, List.flatMap_cons]
    cases hm : match_actions_fuzzy (cfg.get_actions a) acp
    · simp [ih]
    · simp

/-- Claim C3: resolution error handling of `execute_ci_mode`: an empty
application match list aborts the whole invocation with
`NoApplicationsMatched` before any subprocess outcome is consulted (the
result is the same for every outcome oracle); otherwise a matched
application with zero matched actions merely contributes no targets, and
the invocation aborts with `NoActionsMatched` exactly when no matched
application contributes any matched action. -/
theorem resolution_error_handling (cfg : Config) (ap acp : String) :
    (match_apps_fuzzy cfg.apps ap = [] →
      ∀ outcome : Nat → Outcome,
        execute_ci_mode cfg ap acp outcome =
          Except.error CiError.noApplicationsMatched) ∧
    (match_apps_fuzzy cfg.apps ap ≠ [] →
      resolve_targets cfg ap acp =
        (let targets := (match_apps_fuzzy cfg.apps ap).flatMap
            (fun app => (match_actions_fuzzy (cfg.get_actions app) acp).map
              (fun a => (app, a)))
         if targets.isEmpty then Except.error CiError.noActionsMatched
         else Except.ok targets)) := by
  constructor
  · intro hempty outcome
    unfold execute_ci_mode resolve_targets
    rw [hempty]
    exact rfl
  · intro hne
    have hb : (match_apps_fuzzy cfg.apps ap).isEmpty = false := by
      cases hm : match_apps_fuzzy cfg.apps ap
      · exact absurd hm hne
      · rfl
    unfold resolve_targets
    dsimp only
    rw [hb]
    rw [if_neg Bool.false_ne_true]
    rw [resolve_fold_eq cfg acp (match_apps_fuzzy cfg.apps ap) false []]
    simp only [List.nil_append, Bool.false_or]
    rw [any_nonempty_eq_flatMap_nonempty cfg acp (match_apps_fuzzy cfg.apps ap)]
    cases hfm : ((match_apps_fuzzy cfg.apps ap).flatMap
        (fun app => (match_actions_fuzzy (cfg.get_actions app) acp).map
          (fun a => (app, a)))).isEmpty <;> simp [hfm]

/-- Claim C3 witness: a pattern matching no application aborts with
`NoApplicationsMatched` regardless of outcomes, and a configuration in
which matched application `a1` has no matching action while `a2` does
resolves to `a2`'s target only. -/
theorem resolution_error_handling_witness :
    execute_ci_mode cfgWarn "zzz" "go" (fun _ => Outcome.joinErr) =
      Except.error CiError.noApplicationsMatched ∧
    resolve_targets cfgWarn "a1,a2" "go" = Except.ok [("a2", "go")] := by
  constructor
  · exact (resolution_error_handling cfgWarn "zzz" "go").1 (by decide) _
  · have h := (resolution_error_handling cfgWarn "a1,a2" "go").2 (by decide)
    rw [h]
    decide

theorem collect_foldl_eq :
    ∀ (hs : List (String × String × Outcome)) (s0 : Summary),
      hs.foldl collectStep s0 =
        { total_success := s0.total_success +
            (hs.filter (fun x => outcomeSucceeded x.2.2)).length,
          total_failure := s0.total_failure +
            (hs.filter (fun x => !outcomeSucceeded x.2.2)).length,
          failed_commands := s0.failed_commands ++
            (hs.filter (fun x => !outcomeSucceeded x.2.2)).map
              (fun x => x.1 ++ " - " ++ x.2.1) } := by
  intro hs
  induction hs with
  | nil => intro s0; simp
  | cons hd rest ih =>
    intro s0
    obtain ⟨app, action, oc⟩ := hd
    simp only [List.foldl_cons]
    rw [ih]
    cases oc with
    | joinOk r =>
      cases r with
      | ok bb =>
        cases bb
        · simp [collectStep, outcomeSucceeded, List.filter_cons, Summary.mk.injEq,
            List.append_assoc, Nat.add_assoc, Nat.add_comm, Nat.add_left_comm]
        · simp [collectStep, outcomeSucceeded, List.filter_cons, Summary.mk.injEq,
            List.append_assoc, Nat.add_assoc, Nat.add_comm, Nat.add_left_comm]
      | error e =>
        simp [collectStep, outcomeSucceeded, List.filter_cons, Summary.mk.injEq,
          List.append_assoc, Nat.add_assoc, Nat.add_comm, Nat.add_left_comm]
    | joinErr =>
      simp [collectStep, outcomeSucceeded, List.filter_cons, Summary.mk.injEq,
        List.append_assoc, Nat.add_assoc, Nat.add_comm, Nat.add_left_comm]

theorem ciExitCode_eq (b : Bool) (s : Summary) :
    ciExitCode b s = if s.total_failure > 0 then 1 else 0 := by
  unfold ciExitCode
  cases b <;> simp

/-- Claim C1: for a dispatch whose resolution produced `targets`, with `k`
the number of dispatched targets whose outcome is not a successful exit,
the aggregator reports `total_success = N - k` and `total_failure = k`,
lists exactly the failed targets as `app - action` labels in original
dispatch order, and the process exit code is 0 if and only if `k = 0`. -/
theorem ci_aggregation (cfg : Config) (ap acp : String) (outcome : Nat → Outcome)
    (targets : List (String × String))
    (h : resolve_targets cfg ap acp = Except.ok targets) :
    execute_ci_mode cfg ap acp outcome =
      Except.ok
        ({ total_success := targets.length - (failedHandles targets outcome).length,
           total_failure := (failedHandles targets outcome).length,
           failed_commands := (failedHandles targets outcome).map
             (fun x => x.1 ++ " - " ++ x.2.1) },
         if (failedHandles targets outcome).length = 0 then 0 else 1) ∧
    (failedHandles targets outcome).length ≤ targets.length := by
  have hlen : (dispatchHandles targets outcome).length = targets.length := by
    simp [dispatchHandles]
  have hsplit : ((dispatchHandles targets outcome).filter
        (fun x => outcomeSucceeded x.2.2)).length +
      (failedHandles targets outcome).length = targets.length := by
    rw [← hlen]
    exact (List.length_eq_length_filter_add
      (fun x : String × String × Outcome => outcomeSucceeded x.2.2)).symm
  constructor
  · unfold execute_ci_mode
    rw [h]
    dsimp only
    have hd : targets.enum.map (fun p => (p.2.1, p.2.2, outcome p.1)) =
        dispatchHandles targets outcome := rfl
    rw [hd]
    unfold collectResults
    rw [collect_foldl_eq (dispatchHandles targets outcome)]
    rw [ciExitCode_eq]
    simp only [Except.ok.injEq, Prod.mk.injEq, Summary.mk.injEq, Nat.zero_add,
      List.nil_append]
    refine ⟨⟨?_, ?_, ?_⟩, ?_⟩
    · unfold failedHandles at hsplit ⊢
      omega
    · rfl
    · rfl
    · unfold failedHandles
      split_ifs <;> simp_all
  · unfold failedHandles at hsplit ⊢
    omega

/-- Claim C1 witness: dispatching three targets where the second fails and
the others succeed yields success 2, failure 1, the failed list naming the
second target, and exit code 1. -/
theorem ci_aggregation_witness :
    execute_ci_mode cfgDemo "a1,a2,a3" "go" outcomeDemo =
      Except.ok ({ total_success := 2, total_failure := 1,
                   failed_commands := ["a2 - go"] }, 1) ∧
    (failedHandles [("a1", "go"), ("a2", "go"), ("a3", "go")] outcomeDemo).length ≤ 3 := by
  have h := ci_aggregation cfgDemo "a1,a2,a3" "go" outcomeDemo
    [("a1", "go"), ("a2", "go"), ("a3", "go")] (by decide)
  refine ⟨?_, h.2⟩
  rw [h.1]
  decide

end ShellBun
